import Mathlib

/-!
Verification development for the playlist-player `otcs.py`.

The Python source is shallowly embedded: each Python function becomes a
Lean definition of the same name, filesystem and subprocess effects are
abstracted into explicit oracle arguments, and the unbounded retry /
main loops are modelled with explicit fuel.
-/

namespace Otcs

/-! ## Availability gate: `check_file` (source lines 63-93)

`os.path.isfile` is abstracted as an oracle `isfile : Nat → Bool` giving
the result of the k-th existence check (k counted from 0).  The globals
`RETRY_ATTEMPTS` and `RETRY_PERIOD` become the arguments `attempts`
(an `Int`, since -1 is meaningful) and `delay`.  Each `print` of the
"File not found ... Retrying ..." message is recorded in an output
trace: `some n` when the message carries the "n attempts remaining"
countdown, `none` when the countdown string is empty (the
`RETRY_ATTEMPTS < 0` case).  `fuel` bounds the number of `while`
iterations that are simulated; `running` means the loop was still
iterating after `fuel` checks. -/

/-- Result of running the `check_file` retry loop:
`found` = the function returned normally, `notFoundError` = it raised
`FileNotFoundError`, `running` = still looping after the simulated fuel.
Each carries the number of existence checks performed, the accumulated
sleep time, and the trace of printed retry messages. -/
inductive CheckOutcome where
  | found (checks slept : Nat) (out : List (Option Nat))
  | notFoundError (checks slept : Nat) (out : List (Option Nat))
  | running (checks slept : Nat) (out : List (Option Nat))
deriving DecidableEq

/-- The `while not os.path.isfile(path):` loop of `check_file`.
`remaining` is `retry_attempts_remaining`; `checks` is the index of
the next existence check; `slept` accumulates `time.sleep(delay)`. -/
def check_file_go (isfile : Nat → Bool) (delay : Nat) :
    Nat → Int → Nat → Nat → List (Option Nat) → CheckOutcome
  | 0, _, checks, slept, out => CheckOutcome.running checks slept out
  | fuel + 1, remaining, checks, slept, out =>
    if isfile checks then CheckOutcome.found (checks + 1) slept out
    else if 0 < remaining then
      check_file_go isfile delay fuel (remaining - 1) (checks + 1) (slept + delay)
        (out ++ [some remaining.toNat])
    else if remaining = 0 then CheckOutcome.notFoundError (checks + 1) slept out
    else
      check_file_go isfile delay fuel remaining (checks + 1) (slept + delay)
        (out ++ [none])

/-- Entry point `check_file(path)` with `RETRY_ATTEMPTS = attempts` and
`RETRY_PERIOD = delay`, started with an empty output trace. -/
def check_file (isfile : Nat → Bool) (attempts : Int) (delay fuel : Nat) : CheckOutcome :=
  check_file_go isfile delay fuel attempts 0 0 []

/-! ## History log (source lines 184-197) -/

/-- Python list slice `l[-n:]` for `n > 0`: the last `n` elements
(all of them when fewer than `n`). -/
def lastN (n : Nat) (l : List α) : List α :=
  (l.reverse.take n).reverse

/-- The history line `"{},{}\n".format(video_time, video_file)`. -/
def format_history_line (video_time video_file : String) : String :=
  video_time ++ "," ++ video_file ++ "\n"

/-- One update of `play_history.txt` (source lines 184-197): guarded by
`if PLAY_HISTORY_LENGTH > 0`, the current persisted lines are read,
the new line is appended, and `play_history_buffer[-PLAY_HISTORY_LENGTH:]`
is written back, overwriting the file. -/
def record (capacity : Nat) (log : List String) (video_time video_file : String) :
    List String :=
  if 0 < capacity then lastN capacity (log ++ [format_history_line video_time video_file])
  else log

/-- Persisted history after a sequence of `record` calls starting from an
absent (empty) log file. -/
def run_history (capacity : Nat) (calls : List (String × String)) : List String :=
  calls.foldl (fun log p => record capacity log p.1 p.2) []

/-! ## Playlist loading (source lines 253-267) -/

/-- Python `s.startswith(pre)`. -/
def pyStartswith (s pre : String) : Bool :=
  pre.data.isPrefixOf s.data

/-- The comment/blank filter applied to `media_playlist` at startup:
`[i for i in media_playlist if i != "" and not i.startswith(";")
and not i.startswith("#") and not i.startswith("//")]`. -/
def normalize_playlist (media_playlist : List String) : List String :=
  media_playlist.filter (fun i =>
    i != "" && !(pyStartswith i ";") && !(pyStartswith i "#") && !(pyStartswith i "//"))

/-! ## Display names and the schedule writer (source lines 96-153)

`ffprobe` (and the `float(...)` parse of its output) is abstracted as an
oracle `probe : String → Option Nat`: `none` models an empty or
unparsable probe result, `some d` a duration of `d` seconds.  Durations
and the wall-clock anchor are natural-number seconds; `datetime`
addition becomes `Nat` addition.  File writes are modelled by returning
the payload that would be substituted into the template. -/

/-- Index of the last occurrence of `c` in `l`, as Python `str.rfind`:
`-1` when absent. -/
def lastIndexOf (c : Char) (l : List Char) : Int :=
  (List.range l.length).foldl
    (fun acc i => if l.getD i (Char.ofNat 0) = c then (i : Int) else acc) (-1)

/-- The root (first component) of `os.path.splitext` on a POSIX path:
the extension starts at the last dot that lies after the last `/` and
is preceded, within the basename, by at least one non-dot character. -/
def splitext_root (p : List Char) : List Char :=
  let sepIndex := lastIndexOf (Char.ofNat 47) p
  let dotIndex := lastIndexOf (Char.ofNat 46) p
  if sepIndex < dotIndex then
    if (List.range p.length).any (fun i =>
        decide (sepIndex < (i : Int)) && decide ((i : Int) < dotIndex) &&
        (p.getD i (Char.ofNat 0) != Char.ofNat 46)) then
      p.take dotIndex.toNat
    else p
  else p

/-- Display name `os.path.splitext(filename)[0].replace("\\", "/")`: strip the
extension, then replace every backslash with a forward slash. -/
def displayName (s : String) : String :=
  String.mk ((splitext_root s.data).map
    (fun c => if c = Char.ofNat 92 then Char.ofNat 47 else c))

/-- Quote escaping `n.replace("'", "\\'")`: prefix every single-quote character
(codepoint 39) with a backslash (codepoint 92), as done when building
the JavaScript array literal. -/
def escapeQuotes_go : List Char → List Char
  | [] => []
  | c :: cs =>
    if c = Char.ofNat 39 then Char.ofNat 92 :: c :: escapeQuotes_go cs
    else c :: escapeQuotes_go cs

/-- String form of `escapeQuotes_go`. -/
def escapeQuotes (s : String) : String :=
  String.mk (escapeQuotes_go s.data)

/-- The payload `write_schedule` substitutes into `template.html`:
the `coming_up_next` list of `(start time, stripped file name)` pairs,
the names as they appear (quote-escaped) in the `js_array` literal, and
the `previous_file` value substituted for the second placeholder. -/
structure ScheduleArtifact where
  coming_up_next : List (Nat × String)
  js_names : List String
  previous_name : String
deriving DecidableEq

/-- The `for filename in file_list:` loop of `write_schedule`: probe the
duration of each file (raising on an empty probe result), emit
`(next_time, stripped filename)`, and advance `next_time` by the
duration. -/
def write_schedule_items (probe : String → Option Nat) :
    Nat → List String → Except String (List (Nat × String))
  | _, [] => Except.ok []
  | next_time, filename :: rest =>
    match probe filename with
    | none => Except.error ("ffprobe was unable to read duration of: " ++ filename)
    | some duration =>
      match write_schedule_items probe (next_time + duration) rest with
      | Except.error e => Except.error e
      | Except.ok items => Except.ok ((next_time, displayName filename) :: items)

/-- Model of `write_schedule(file_list, previous_file)` (source lines 96-153).
`now` is the `datetime.datetime.utcnow()` anchor.  An `Except.error`
models the uncaught exception that kills the schedule process before
anything is written. -/
def write_schedule (probe : String → Option Nat) (now : Nat)
    (file_list : List String) (previous_file : String) :
    Except String ScheduleArtifact :=
  let prev := if previous_file != "" then displayName previous_file else previous_file
  match write_schedule_items probe now file_list with
  | Except.error e => Except.error e
  | Except.ok items =>
    Except.ok
      { coming_up_next := items
        js_names := items.map (fun p => escapeQuotes p.2)
        previous_name := prev }

/-! ## The main cycle: `loop` (source lines 158-244) -/

/-- Python `itertools.islice(itertools.cycle(l), n)` as a list: the first `n`
elements of `l` repeated forever (empty when `l` is empty). -/
def cycle_islice (l : List String) (n : Nat) : List String :=
  if l.length = 0 then []
  else (List.range n).map (fun i => l.getD (i % l.length) "")

/-- The slice passed to `write_schedule` (source lines 206-219):
`media_progress = media_playlist[play_index:]`; if it has at least
`SCHEDULE_UPCOMING_LENGTH` (= `M`) items take the first `M + 1`,
otherwise extend it with `M - len(media_progress) + 1` items cycled
from the start of the playlist. -/
def media_copy (media_playlist : List String) (play_index M : Nat) : List String :=
  let media_progress := media_playlist.drop play_index
  if M ≤ media_progress.length then media_progress.take (M + 1)
  else media_progress ++ cycle_islice media_playlist (M - media_progress.length + 1)

/-- Lookup `media_playlist[play_index - 1]`, with Python semantics: at
`play_index = 0` the index is `-1`, which selects the final element. -/
def previous_entry (media_playlist : List String) (play_index : Nat) : String :=
  if play_index = 0 then media_playlist.getD (media_playlist.length - 1) ""
  else media_playlist.getD (play_index - 1) ""

/-- Observable effects of one call of `loop(media_playlist)`:
which file was launched for playback (if any), the new persisted
history lines, the schedule artifact written (or `none` when schedule
writing is disabled, the playlist index wrapped, or the schedule
process died on a ProbeError), and the integer written back to
`play_index.txt`. -/
structure LoopResult where
  played : Option String
  history : List String
  schedule : Option ScheduleArtifact
  next_index : Nat
deriving DecidableEq

/-- One call of `loop(media_playlist)` (source lines 158-244), starting
from the persisted index `play_index` and persisted history lines
`history`.  `schedule_enabled` models `SCHEDULE_PATH != None`,
`M` is `SCHEDULE_UPCOMING_LENGTH`, `history_length` is
`PLAY_HISTORY_LENGTH`, and `video_time` the `datetime.datetime.now()`
timestamp string.  A failure inside the `write_schedule` child process
only loses that cycle's artifact. -/
def loop (probe : String → Option Nat) (now : Nat) (schedule_enabled : Bool)
    (M history_length : Nat) (media_playlist : List String)
    (play_index : Nat) (history : List String) (video_time : String) : LoopResult :=
  if play_index < media_playlist.length then
    let video_file := media_playlist.getD play_index ""
    let history2 := record history_length history video_time video_file
    let schedule :=
      if schedule_enabled then
        match write_schedule probe now (media_copy media_playlist play_index M)
            (previous_entry media_playlist play_index) with
        | Except.error _ => none
        | Except.ok a => some a
      else none
    { played := some video_file
      history := history2
      schedule := schedule
      next_index := play_index + 1 }
  else
    { played := none
      history := history
      schedule := none
      next_index := 0 }

/-- The value written to `play_index.txt` at the end of one `loop` call
(source lines 236-244): incremented below the playlist length, reset to
0 otherwise. -/
def advance_index (media_playlist : List String) (play_index : Nat) : Nat :=
  if play_index < media_playlist.length then play_index + 1 else 0

/-- Persisted `play_index.txt` after `k` calls of `loop`, starting from
a fresh deployment (index 0).  Each call re-reads the persisted value,
so restarts between calls do not change the sequence. -/
def cursor_after_cycles (media_playlist : List String) : Nat → Nat
  | 0 => 0
  | k + 1 => advance_index media_playlist (cursor_after_cycles media_playlist k)

/-- The cursor-advance rule as worded by the specification: wrap to 0
as soon as `cursor + 1` reaches the playlist length. -/
def spec_advance (cursor playlistLength : Nat) : Nat :=
  if cursor + 1 < playlistLength then cursor + 1 else 0

/-! ## Claim C1: cursor advancement -/

/-- The persisted index written by one `loop` call is `advance_index`. -/
theorem loop_next_index_eq (probe : String → Option Nat) (now : Nat)
    (en : Bool) (M N : Nat) (pl : List String) (c : Nat) (hist : List String)
    (vt : String) :
    (loop probe now en M N pl c hist vt).next_index = advance_index pl c := by
  by_cases h : c < pl.length <;> simp [loop, advance_index, h]

/-- Arithmetic of the iterated advance: counting modulo `L + 1`. -/
theorem cursor_after_cycles_eq (pl : List String) (k : Nat) :
    cursor_after_cycles pl k = k % (pl.length + 1) := by
  induction k with
  | zero => simp [cursor_after_cycles]
  | succ k ih =>
    have hr : k % (pl.length + 1) < pl.length + 1 :=
      Nat.mod_lt _ (Nat.succ_pos _)
    have e1 : pl.length.succ * (k / (pl.length + 1)) + k % (pl.length + 1) = k :=
      Nat.div_add_mod k (pl.length + 1)
    have e2 : k + 1 = (k % (pl.length + 1) + 1) + (pl.length + 1) * (k / (pl.length + 1)) := by
      rw [Nat.succ_eq_add_one] at e1; linarith
    rw [cursor_after_cycles, ih, advance_index]
    by_cases hc : k % (pl.length + 1) < pl.length
    · rw [if_pos hc, e2, Nat.add_mul_mod_self_left,
        Nat.mod_eq_of_lt (by omega : k % (pl.length + 1) + 1 < pl.length + 1)]
    · have hL : k % (pl.length + 1) = pl.length := by omega
      rw [if_neg hc, e2, Nat.add_mul_mod_self_left, hL, Nat.mod_self]

/-- C1 (amended): after each completed cycle the persisted cursor equals
`cursor + 1` when `cursor < playlistLength` and `0` otherwise — in
particular the transient value `playlistLength` itself is persisted
after the final item plays, and `0` is persisted when the playlist is
empty.  Consequently, for every playlist of length `L` and every number
`k` of completed cycles starting from cursor 0, the persisted cursor
equals `k mod (L + 1)` (which is 0 when `L = 0`), regardless of process
restarts between cycles. -/
theorem C1_cursor_advance :
    (∀ (probe : String → Option Nat) (now : Nat) (en : Bool) (M N : Nat)
       (pl : List String) (c : Nat) (hist : List String) (vt : String),
       (loop probe now en M N pl c hist vt).next_index =
         if c < pl.length then c + 1 else 0) ∧
    (∀ (pl : List String) (k : Nat),
       cursor_after_cycles pl k = k % (pl.length + 1)) := by
  constructor
  · intro probe now en M N pl c hist vt
    rw [loop_next_index_eq]; rfl
  · exact cursor_after_cycles_eq

/-- C1 is false as stated: with playlist `["a"]` (length 1), a cycle
that starts at cursor 0 persists `1`, not the post-wrap value `0`
demanded by the spec's `advance` (`spec_advance 0 1 = 0`); and after
one completed cycle from cursor 0 the persisted cursor is `1`, while
`1 mod 1 = 0`. -/
theorem C1_counterexample :
    (loop (fun _ => none) 0 false 0 0 ["a"] 0 [] "").next_index = 1 ∧
    spec_advance 0 1 = 0 ∧
    cursor_after_cycles ["a"] 1 = 1 ∧ 1 % 1 = 0 := by decide

/-! ## Claim C3: the wrap cycle -/

/-- C3 (amended): when a cycle begins with `cursor ≥ len(playlist)`
(also when the playlist is empty), that cycle resolves and plays
nothing, records no history, writes no schedule, and persists cursor 0;
the item at index 0 is then played on the following cycle. -/
theorem C3_wrap_cycle :
    (∀ (probe : String → Option Nat) (now : Nat) (en : Bool) (M N : Nat)
       (pl : List String) (c : Nat) (hist : List String) (vt : String),
       pl.length ≤ c →
       loop probe now en M N pl c hist vt =
         { played := none, history := hist, schedule := none, next_index := 0 }) ∧
    (∀ (probe : String → Option Nat) (now : Nat) (en : Bool) (M N : Nat)
       (pl : List String) (hist : List String) (vt : String),
       pl ≠ [] →
       (loop probe now en M N pl 0 hist vt).played = some (pl.getD 0 "")) := by
  constructor
  · intro probe now en M N pl c hist vt h
    simp [loop, Nat.not_lt.mpr h]
  · intro probe now en M N pl hist vt h
    simp [loop, List.length_pos.mpr h]

/-- Witness for C3: a concrete wrap cycle on playlist `["a"]` starting
at cursor 1, and the following cycle at cursor 0 playing the item at
index 0 with schedule publication enabled (the shipped mode). -/
theorem C3_wrap_cycle_witness :
    ((["a"] : List String).length ≤ 1 ∧
     loop (fun _ => none) 0 false 0 0 ["a"] 1 [] "" =
       { played := none, history := [], schedule := none, next_index := 0 }) ∧
    ((["a"] : List String) ≠ [] ∧
     (loop (fun _ => none) 0 true 0 0 ["a"] 0 [] "").played =
       some ((["a"] : List String).getD 0 "")) :=
  ⟨⟨by decide, C3_wrap_cycle.1 (fun _ => none) 0 false 0 0 ["a"] 1 [] "" (by decide)⟩,
   ⟨by decide, C3_wrap_cycle.2 (fun _ => none) 0 true 0 0 ["a"] [] "" (by decide)⟩⟩

/-- C3 is false as stated: on playlist `["a"]` with cursor 1 (≥ length),
the cycle plays nothing at all, although the claim demands that the
item at index 0 (namely `"a"`) be resolved and played during that same
cycle. -/
theorem C3_counterexample :
    (loop (fun _ => none) 0 false 0 0 ["a"] 1 [] "").played = none ∧
    (["a"] : List String).getD 0 "" = "a" := by decide

/-! ## Claims C4 and C8: the availability gate -/

/-- If the retry loop raised `FileNotFoundError`, every existence check
it performed (they are the checks at indices `idx, …, c - 1`) came back
absent. -/
theorem check_file_go_notFound_absent (isfile : Nat → Bool) (delay : Nat) :
    ∀ (fuel : Nat) (rem : Int) (idx slept : Nat) (out : List (Option Nat))
      (c s : Nat) (o : List (Option Nat)),
      check_file_go isfile delay fuel rem idx slept out =
        CheckOutcome.notFoundError c s o →
      idx ≤ c ∧ ∀ k, idx ≤ k → k < c → isfile k = false := by
  intro fuel
  induction fuel with
  | zero =>
    intro rem idx slept out c s o h
    simp [check_file_go] at h
  | succ fuel ih =>
    intro rem idx slept out c s o h
    rw [check_file_go] at h
    cases hf : isfile idx with
    | true => rw [hf] at h; simp at h
    | false =>
      rw [hf] at h
      simp only [Bool.false_eq_true, if_false] at h
      by_cases h0 : (0 : Int) < rem
      · rw [if_pos h0] at h
        obtain ⟨h1, h2⟩ := ih _ _ _ _ c s o h
        refine ⟨by omega, fun k hk1 hk2 => ?_⟩
        rcases Nat.eq_or_lt_of_le hk1 with he | hl
        · rw [← he]; exact hf
        · exact h2 k hl hk2
      · by_cases hz : rem = 0
        · rw [if_neg h0, if_pos hz] at h
          simp only [CheckOutcome.notFoundError.injEq] at h
          refine ⟨by omega, fun k hk1 hk2 => ?_⟩
          have : k = idx := by omega
          rw [this]; exact hf
        · rw [if_neg h0, if_neg hz] at h
          obtain ⟨h1, h2⟩ := ih _ _ _ _ c s o h
          refine ⟨by omega, fun k hk1 hk2 => ?_⟩
          rcases Nat.eq_or_lt_of_le hk1 with he | hl
          · rw [← he]; exact hf
          · exact h2 k hl hk2

/-- C4: with `RETRY_ATTEMPTS = 0` on a path that is absent,
`check_file` raises `FileNotFoundError` after a single existence check
and without sleeping; with `RETRY_ATTEMPTS = 2` and `RETRY_PERIOD = 1`
on a path that never appears, it performs exactly 3 existence checks
(the initial one plus 2 retries, printing the countdown), sleeps 2
seconds in total before raising, and this is independent of how long
the loop is allowed to run; and whenever it raises, every check it
performed saw the path absent (so it returns normally if the path
exists at any performed check). -/
theorem C4_availability_gate :
    (∀ delay fuel, check_file (fun _ => false) 0 delay (fuel + 1) =
        CheckOutcome.notFoundError 1 0 []) ∧
    (∀ fuel, check_file (fun _ => false) 2 1 (fuel + 3) =
        CheckOutcome.notFoundError 3 2 [some 2, some 1]) ∧
    (∀ (isfile : Nat → Bool) (attempts : Int) (delay fuel : Nat)
       (c s : Nat) (o : List (Option Nat)),
       check_file isfile attempts delay fuel = CheckOutcome.notFoundError c s o →
       ∀ k, k < c → isfile k = false) := by
  refine ⟨?_, ?_, ?_⟩
  · intro delay fuel
    show check_file_go (fun _ => false) delay (fuel + 1) 0 0 0 [] = _
    rw [check_file_go]
    norm_num
  · intro fuel
    show check_file_go (fun _ => false) 1 ((fuel + 2) + 1) 2 0 0 [] = _
    rw [check_file_go]
    norm_num
    show check_file_go (fun _ => false) 1 ((fuel + 1) + 1) 1 1 1 [some 2] = _
    rw [check_file_go]
    norm_num
    show check_file_go (fun _ => false) 1 (fuel + 1) 0 2 2 [some 2, some 1] = _
    rw [check_file_go]
    norm_num
  · intro isfile attempts delay fuel c s o h k hk
    exact (check_file_go_notFound_absent isfile delay fuel attempts 0 0 [] c s o h).2
      k (Nat.zero_le k) hk

/-- Witness for C4: a run with `RETRY_ATTEMPTS = 0` on an
always-absent path raises, and the third conjunct recovers that the
single check performed saw the path absent. -/
theorem C4_availability_gate_witness :
    check_file (fun _ => false) 0 5 1 = CheckOutcome.notFoundError 1 0 [] ∧
    (fun _ => false : Nat → Bool) 0 = false :=
  ⟨by decide,
   C4_availability_gate.2.2 (fun _ => false) 0 5 1 1 0 [] (by decide) 0 (by decide)⟩

/-- With any negative `RETRY_ATTEMPTS` the retry loop can never raise
`FileNotFoundError` (a negative `retry_attempts_remaining` is never
modified, so neither raising branch is ever taken). -/
theorem check_file_go_neg_no_raise (isfile : Nat → Bool) (delay : Nat)
    (a : Int) (ha : a < 0) :
    ∀ (fuel idx slept : Nat) (out : List (Option Nat)) (c s : Nat)
      (o : List (Option Nat)),
      check_file_go isfile delay fuel a idx slept out ≠
        CheckOutcome.notFoundError c s o := by
  intro fuel
  induction fuel with
  | zero => intro idx slept out c s o h; simp [check_file_go] at h
  | succ fuel ih =>
    intro idx slept out c s o h
    rw [check_file_go] at h
    cases hf : isfile idx with
    | true => rw [hf] at h; simp at h
    | false =>
      rw [hf] at h
      simp only [Bool.false_eq_true, if_false] at h
      rw [if_neg (by omega), if_neg (by omega)] at h
      exact ih _ _ _ c s o h

/-- With any negative `RETRY_ATTEMPTS`, if the first `n` checks fail
and the `n`-th succeeds, the loop returns right after the `n`-th check,
having slept `delay` seconds between consecutive checks and printed one
countdown-free retry message per failed check. -/
theorem check_file_go_neg_found (isfile : Nat → Bool) (delay : Nat)
    (a : Int) (ha : a < 0) :
    ∀ (n fuel idx slept : Nat) (out : List (Option Nat)),
      (∀ k, k < n → isfile (idx + k) = false) → isfile (idx + n) = true →
      n < fuel →
      check_file_go isfile delay fuel a idx slept out =
        CheckOutcome.found (idx + n + 1) (slept + n * delay)
          (out ++ List.replicate n none) := by
  intro n
  induction n with
  | zero =>
    intro fuel idx slept out habs hfound hfuel
    cases fuel with
    | zero => omega
    | succ fuel =>
      rw [check_file_go]
      rw [show idx + 0 = idx from rfl] at hfound
      rw [hfound]
      simp
  | succ n ih =>
    intro fuel idx slept out habs hfound hfuel
    cases fuel with
    | zero => omega
    | succ fuel =>
      rw [check_file_go]
      have h0 : isfile idx = false := by
        have := habs 0 (Nat.succ_pos n)
        rwa [show idx + 0 = idx from rfl] at this
      rw [h0]
      simp only [Bool.false_eq_true, if_false]
      rw [if_neg (by omega), if_neg (by omega)]
      have habs2 : ∀ k, k < n → isfile (idx + 1 + k) = false := by
        intro k hk
        have := habs (k + 1) (by omega)
        rwa [show idx + (k + 1) = idx + 1 + k by omega] at this
      have hfound2 : isfile (idx + 1 + n) = true := by
        rwa [show idx + 1 + n = idx + (n + 1) by omega]
      rw [ih fuel (idx + 1) (slept + delay) (out ++ [none]) habs2 hfound2 (by omega)]
      have e1 : idx + 1 + n + 1 = idx + (n + 1) + 1 := by omega
      have e2 : slept + delay + n * delay = slept + (n + 1) * delay := by
        rw [Nat.succ_mul]; omega
      have e3 : out ++ [none] ++ List.replicate n none =
          out ++ List.replicate (n + 1) none := by
        rw [List.replicate_succ, List.append_assoc]
        rfl
      rw [e1, e2, e3]

/-- C8 (amended): for every `RETRY_ATTEMPTS < 0`, `check_file` never
raises `FileNotFoundError`: it re-checks existence indefinitely,
sleeping the configured delay between attempts, and returns as soon as
the path exists — but it is not silent: it prints one
"File not found … Retrying …" message (without an attempts-remaining
countdown) per failed check. -/
theorem C8_unbounded_retry :
    (∀ (isfile : Nat → Bool) (attempts : Int) (delay fuel idx slept : Nat)
       (out : List (Option Nat)) (c s : Nat) (o : List (Option Nat)),
       attempts < 0 →
       check_file_go isfile delay fuel attempts idx slept out ≠
         CheckOutcome.notFoundError c s o) ∧
    (∀ (isfile : Nat → Bool) (attempts : Int) (delay n fuel : Nat),
       attempts < 0 →
       (∀ k, k < n → isfile k = false) → isfile n = true → n < fuel →
       check_file isfile attempts delay fuel =
         CheckOutcome.found (n + 1) (n * delay) (List.replicate n none)) := by
  constructor
  · exact fun isfile attempts delay fuel idx slept out c s o ha =>
      check_file_go_neg_no_raise isfile delay attempts ha fuel idx slept out c s o
  · intro isfile attempts delay n fuel ha habs hfound hfuel
    have := check_file_go_neg_found isfile delay attempts ha n fuel 0 0 []
      (by intro k hk; rw [Nat.zero_add]; exact habs k hk)
      (by rwa [Nat.zero_add]) hfuel
    rwa [Nat.zero_add, Nat.zero_add, List.nil_append] at this

/-- Witness for C8: with `RETRY_ATTEMPTS = -2`, a path that appears at
the third check (index 2) with `RETRY_PERIOD = 5` is found after 3
checks, 10 seconds of sleep and two countdown-free retry messages. -/
theorem C8_unbounded_retry_witness :
    ((-2 : Int) < 0 ∧ ∀ k, k < 2 → (fun k => decide (k = 2)) k = false) ∧
    check_file (fun k => decide (k = 2)) (-2) 5 4 =
      CheckOutcome.found 3 10 (List.replicate 2 none) :=
  ⟨⟨by decide, by decide⟩,
   C8_unbounded_retry.2 (fun k => decide (k = 2)) (-2) 5 2 4 (by decide) (by decide)
     (by decide) (by decide)⟩

/-- C8 is false as stated: on a path that is absent at the first check
and appears at the second, the `-1` configuration emits a retry
message — the claim's "emitting no per-attempt output" does not hold. -/
theorem C8_counterexample :
    check_file (fun k => decide (k = 1)) (-1) 5 3 =
      CheckOutcome.found 2 5 [none] ∧
    ([none] : List (Option Nat)) ≠ [] := by decide

/-! ## Claim C5: the history log -/

/-- Truncation `lastN` keeps `min n (length l)` elements. -/
theorem length_lastN (n : Nat) (l : List α) : (lastN n l).length = min n l.length := by
  simp [lastN]

/-- Truncating to the last `n`, appending one element, and truncating
again is the same as appending and truncating once. -/
theorem lastN_append_lastN (n : Nat) (l : List α) (e : α) :
    lastN n (lastN n l ++ [e]) = lastN n (l ++ [e]) := by
  cases n with
  | zero => simp [lastN]
  | succ k =>
    simp only [lastN, List.reverse_append, List.reverse_cons, List.reverse_nil,
      List.nil_append, List.reverse_reverse, List.singleton_append,
      List.take_succ_cons, List.take_take]
    rw [Nat.min_eq_left (Nat.le_succ k)]

/-- Folding `record` over a sequence of calls, starting from the last-`N`
truncation of any log, yields the last-`N` truncation of the fully
appended sequence. -/
theorem run_history_acc (N : Nat) (hN : 0 < N) :
    ∀ (calls : List (String × String)) (l : List String),
      calls.foldl (fun log p => record N log p.1 p.2) (lastN N l) =
        lastN N (l ++ calls.map (fun p => format_history_line p.1 p.2)) := by
  intro calls
  induction calls with
  | nil => intro l; simp
  | cons c cs ih =>
    intro l
    rw [List.foldl_cons,
      show record N (lastN N l) c.1 c.2 =
        lastN N (l ++ [format_history_line c.1 c.2]) by
        rw [record, if_pos hN, lastN_append_lastN],
      ih (l ++ [format_history_line c.1 c.2])]
    simp

/-- C5: `record` is a no-op when the configured capacity is 0;
otherwise, after any sequence of `record` calls starting from an empty
log, the persisted log is exactly the last `min(N, number of calls)`
history lines in call order (newest last), so its length never exceeds
`N`. -/
theorem C5_history_log :
    (∀ (log : List String) (ts e : String), record 0 log ts e = log) ∧
    (∀ (N : Nat) (calls : List (String × String)), 0 < N →
       run_history N calls =
         lastN N (calls.map (fun p => format_history_line p.1 p.2)) ∧
       (run_history N calls).length = min N calls.length ∧
       (run_history N calls).length ≤ N) := by
  constructor
  · intro log ts e; simp [record]
  · intro N calls hN
    have h1 : run_history N calls =
        lastN N (calls.map (fun p => format_history_line p.1 p.2)) := by
      have := run_history_acc N hN calls []
      simpa [run_history, lastN] using this
    refine ⟨h1, ?_, ?_⟩
    · rw [h1, length_lastN, List.length_map]
    · rw [h1, length_lastN, List.length_map]
      exact Nat.min_le_left _ _

/-- Witness for C5: three records at capacity 2 leave exactly the last
two lines, in order. -/
theorem C5_history_log_witness :
    (run_history 2 [("t1", "a"), ("t2", "b"), ("t3", "c")] =
       lastN 2 (([("t1", "a"), ("t2", "b"), ("t3", "c")] : List (String × String)).map
         (fun p => format_history_line p.1 p.2)) ∧
     (run_history 2 [("t1", "a"), ("t2", "b"), ("t3", "c")]).length =
       min 2 ([("t1", "a"), ("t2", "b"), ("t3", "c")] : List (String × String)).length ∧
     (run_history 2 [("t1", "a"), ("t2", "b"), ("t3", "c")]).length ≤ 2) ∧
    run_history 2 [("t1", "a"), ("t2", "b"), ("t3", "c")] = ["t2,b\n", "t3,c\n"] :=
  ⟨C5_history_log.2 2 [("t1", "a"), ("t2", "b"), ("t3", "c")] (by decide), by decide⟩

/-! ## Claim C7: playlist normalization -/

/-- C7: the startup filter keeps order (the result is a sublist of the
source), keeps exactly the lines that are non-empty and do not begin
with `;`, `#` or `//`, and normalizes the concrete source list of the
claim to `["a.mp4", "b.mp4"]`. -/
theorem C7_playlist_filter :
    (∀ l : List String, (normalize_playlist l).Sublist l) ∧
    (∀ (l : List String) (x : String),
       x ∈ normalize_playlist l ↔
         x ∈ l ∧ x ≠ "" ∧ ¬([';'] <+: x.data) ∧ ¬(['#'] <+: x.data) ∧
           ¬(['/', '/'] <+: x.data)) ∧
    normalize_playlist ["", "; skip", "a.mp4", "# skip", "// skip", "b.mp4"] =
      ["a.mp4", "b.mp4"] := by
  refine ⟨?_, ?_, by decide⟩
  · intro l
    exact List.filter_sublist l
  · intro l x
    rw [normalize_playlist, List.mem_filter]
    refine and_congr_right fun _ => ?_
    simp only [Bool.and_eq_true, bne_iff_ne, Bool.not_eq_true', pyStartswith,
      show (";").data = [';'] from rfl, show ("#").data = ['#'] from rfl,
      show ("//").data = ['/', '/'] from rfl,
      ← Bool.not_eq_true, List.isPrefixOf_iff_prefix]
    tauto

/-- Witness for C7: membership characterization evaluated on the
claim's concrete source list. -/
theorem C7_playlist_filter_witness :
    "a.mp4" ∈ normalize_playlist ["", "; skip", "a.mp4", "# skip", "// skip", "b.mp4"] ↔
      "a.mp4" ∈ (["", "; skip", "a.mp4", "# skip", "// skip", "b.mp4"] : List String) ∧
      "a.mp4" ≠ "" ∧ ¬([';'] <+: ("a.mp4").data) ∧ ¬(['#'] <+: ("a.mp4").data) ∧
      ¬(['/', '/'] <+: ("a.mp4").data) :=
  C7_playlist_filter.2.1 ["", "; skip", "a.mp4", "# skip", "// skip", "b.mp4"] "a.mp4"

/-! ## Helper lemmas about the schedule writer -/

/-- On success, the projection loop emits one schedule item per input
file, and the emitted names are the display names of the inputs. -/
theorem write_schedule_items_ok (probe : String → Option Nat) :
    ∀ (fl : List String) (now : Nat) (items : List (Nat × String)),
      write_schedule_items probe now fl = Except.ok items →
      items.length = fl.length ∧ items.map Prod.snd = fl.map displayName := by
  intro fl
  induction fl with
  | nil =>
    intro now items h
    simp [write_schedule_items] at h
    simp [← h]
  | cons f rest ih =>
    intro now items h
    rw [write_schedule_items] at h
    cases hp : probe f with
    | none => rw [hp] at h; simp at h
    | some d =>
      rw [hp] at h
      simp only [] at h
      cases hr : write_schedule_items probe (now + d) rest with
      | error e => rw [hr] at h; simp at h
      | ok tail =>
        rw [hr] at h
        simp only [Except.ok.injEq] at h
        obtain ⟨h1, h2⟩ := ih (now + d) tail hr
        rw [← h]
        simp [h1, h2]

/-- When every file in the list probes successfully, the projection
loop succeeds. -/
theorem write_schedule_items_exists (probe : String → Option Nat) :
    ∀ (fl : List String) (now : Nat),
      (∀ f ∈ fl, (probe f).isSome) →
      ∃ items, write_schedule_items probe now fl = Except.ok items := by
  intro fl
  induction fl with
  | nil => intro now _; exact ⟨[], rfl⟩
  | cons f rest ih =>
    intro now hsome
    cases hp : probe f with
    | none =>
      have := hsome f (List.mem_cons_self f rest)
      rw [hp] at this
      simp at this
    | some d =>
      obtain ⟨tail, htail⟩ := ih (now + d) (fun g hg => hsome g (List.mem_cons_of_mem f hg))
      refine ⟨(now, displayName f) :: tail, ?_⟩
      rw [write_schedule_items, hp]
      simp only []
      rw [htail]

/-- If some file in the list probes to an empty result, the projection
loop raises. -/
theorem write_schedule_items_error_of_none (probe : String → Option Nat) :
    ∀ (fl : List String) (now : Nat) (f : String),
      f ∈ fl → probe f = none →
      ∃ e, write_schedule_items probe now fl = Except.error e := by
  intro fl
  induction fl with
  | nil => intro now f hf _; simp at hf
  | cons g rest ih =>
    intro now f hf hnone
    cases hp : probe g with
    | none => exact ⟨_, by rw [write_schedule_items, hp]⟩
    | some d =>
      have hfr : f ∈ rest := by
        cases List.mem_cons.mp hf with
        | inl he => rw [he] at hnone; rw [hnone] at hp; cases hp
        | inr hr => exact hr
      obtain ⟨e, he⟩ := ih (now + d) f hfr hnone
      refine ⟨e, ?_⟩
      rw [write_schedule_items, hp]
      simp only []
      rw [he]

/-- Characterization of a successful `write_schedule` run: the emitted
names are the display names of the inputs, the names in the JavaScript
array are additionally quote-escaped, and the previous-file placeholder
receives the (unescaped) display name of `previous_file`. -/
theorem write_schedule_ok_spec (probe : String → Option Nat) (now : Nat)
    (fl : List String) (prev : String) (a : ScheduleArtifact)
    (h : write_schedule probe now fl prev = Except.ok a) :
    a.coming_up_next.length = fl.length ∧
    a.coming_up_next.map Prod.snd = fl.map displayName ∧
    a.js_names = fl.map (fun f => escapeQuotes (displayName f)) ∧
    a.previous_name = if prev = "" then "" else displayName prev := by
  rw [write_schedule] at h
  cases hi : write_schedule_items probe now fl with
  | error e => rw [hi] at h; cases h
  | ok items =>
    rw [hi] at h
    simp only [Except.ok.injEq] at h
    obtain ⟨h1, h2⟩ := write_schedule_items_ok probe fl now items hi
    rw [← h]
    refine ⟨h1, h2, ?_, ?_⟩
    · show items.map (fun p => escapeQuotes p.2) = _
      rw [show (fun p : Nat × String => escapeQuotes p.2) =
            (escapeQuotes ∘ Prod.snd) from rfl, ← List.map_map, h2, List.map_map]
      rfl
    · show (if prev != "" then displayName prev else prev) = _
      by_cases hp : prev = ""
      · simp [hp]
      · simp [hp]

/-- Duration oracle of the worked example: A↦30s, B↦20s, C↦10s. -/
def example_probe : String → Option Nat := fun f =>
  if f = "A" then some 30 else if f = "B" then some 20
  else if f = "C" then some 10 else none

/-! ## Claim C2: schedule length and wrap-around -/

/-- The number of entries in the slice handed to `write_schedule`:
`M + 1` (the currently playing item plus `M` more), except exactly `M`
when precisely `M` items remain from the cursor to the end of the
playlist. -/
theorem length_media_copy (pl : List String) (c M : Nat) (hc : c < pl.length) :
    (media_copy pl c M).length = if pl.length - c = M then M else M + 1 := by
  have hL : pl.length ≠ 0 := by omega
  simp only [media_copy, List.length_drop]
  by_cases h : M ≤ pl.length - c
  · rw [if_pos h]
    simp only [List.length_take, List.length_drop]
    by_cases he : pl.length - c = M
    · rw [if_pos he]; omega
    · rw [if_neg he]; omega
  · rw [if_neg h]
    simp only [List.length_append, List.length_drop, cycle_islice, if_neg hL,
      List.length_map, List.length_range]
    rw [if_neg (by omega)]
    omega

/-- C2 (amended): for every playlist and every cursor `c < len(playlist)`
on which a schedule is generated, the emitted schedule contains
`M + 1` items (the currently playing item plus `M` upcoming ones),
except exactly `M` items when exactly `M` items remain from the cursor,
wrapping around to the start of the playlist when the remainder runs
short; for playlist `[A(30s), B(20s), C(10s)]`, cursor 1, anchor `T0`
and `M = 4` the emitted schedule is
`[(T0,B), (T0+20,C), (T0+30,A), (T0+60,B), (T0+80,C)]`. -/
theorem C2_schedule_length :
    (∀ (pl : List String) (c M : Nat) (probe : String → Option Nat) (now : Nat)
       (prev : String),
       c < pl.length → (∀ f ∈ media_copy pl c M, (probe f).isSome) →
       ∃ a, write_schedule probe now (media_copy pl c M) prev = Except.ok a ∧
         a.coming_up_next.length = if pl.length - c = M then M else M + 1) ∧
    write_schedule example_probe 1000 (media_copy ["A", "B", "C"] 1 4)
        (previous_entry ["A", "B", "C"] 1) =
      Except.ok
        { coming_up_next := [(1000, "B"), (1020, "C"), (1030, "A"), (1060, "B"),
            (1080, "C")]
          js_names := ["B", "C", "A", "B", "C"]
          previous_name := "A" } := by
  constructor
  · intro pl c M probe now prev hc hsome
    obtain ⟨items, hitems⟩ := write_schedule_items_exists probe (media_copy pl c M) now hsome
    refine ⟨{ coming_up_next := items
              js_names := items.map (fun p => escapeQuotes p.2)
              previous_name := if prev != "" then displayName prev else prev }, ?_, ?_⟩
    · rw [write_schedule, hitems]
    · show items.length = _
      rw [(write_schedule_items_ok probe _ now items hitems).1,
        length_media_copy pl c M hc]
  · rfl

/-- Witness for C2: the general length statement applied to the worked
example (5 = M + 1 items). -/
theorem C2_schedule_length_witness :
    1 < (["A", "B", "C"] : List String).length ∧
    ∃ a, write_schedule example_probe 1000 (media_copy ["A", "B", "C"] 1 4) "A" =
        Except.ok a ∧
      a.coming_up_next.length =
        if (["A", "B", "C"] : List String).length - 1 = 4 then 4 else 4 + 1 :=
  ⟨by decide,
   C2_schedule_length.1 ["A", "B", "C"] 1 4 example_probe 1000 "A" (by decide)
     (by decide)⟩

/-- C2 is false as stated: for the claim's own example the emitted
schedule has 5 items, not `M = 4` — it is the claimed four-item
schedule followed by a fifth item `(T0+80, C)`. -/
theorem C2_counterexample :
    write_schedule example_probe 1000 (media_copy ["A", "B", "C"] 1 4)
        (previous_entry ["A", "B", "C"] 1) =
      Except.ok
        { coming_up_next := [(1000, "B"), (1020, "C"), (1030, "A"), (1060, "B"),
            (1080, "C")]
          js_names := ["B", "C", "A", "B", "C"]
          previous_name := "A" } ∧
    ([(1000, "B"), (1020, "C"), (1030, "A"), (1060, "B"), (1080, "C")] :
        List (Nat × String)) ≠
      [(1000, "B"), (1020, "C"), (1030, "A"), (1060, "B")] :=
  ⟨rfl, by decide⟩

/-! ## Claim C6: probe-failure isolation -/

/-- C6: when the duration probe returns an empty result for some item of
the slice, `write_schedule` raises a ProbeError (the ffprobe
exception); the playback launch, the history update and the cursor
advancement of the cycle do not depend on the probe at all; and under
such a failure the cycle writes no schedule artifact. -/
theorem C6_probe_isolation :
    (∀ (probe : String → Option Nat) (now : Nat) (fl : List String)
       (prev f : String), f ∈ fl → probe f = none →
       ∃ e, write_schedule probe now fl prev = Except.error e) ∧
    (∀ (probe probe2 : String → Option Nat) (now : Nat) (en : Bool) (M N : Nat)
       (pl : List String) (c : Nat) (hist : List String) (vt : String),
       (loop probe now en M N pl c hist vt).played =
         (loop probe2 now en M N pl c hist vt).played ∧
       (loop probe now en M N pl c hist vt).history =
         (loop probe2 now en M N pl c hist vt).history ∧
       (loop probe now en M N pl c hist vt).next_index =
         (loop probe2 now en M N pl c hist vt).next_index) ∧
    (∀ (probe : String → Option Nat) (now : Nat) (en : Bool) (M N : Nat)
       (pl : List String) (c : Nat) (hist : List String) (vt : String) (e : String),
       write_schedule probe now (media_copy pl c M) (previous_entry pl c) =
         Except.error e →
       (loop probe now en M N pl c hist vt).schedule = none) := by
  refine ⟨?_, ?_, ?_⟩
  · intro probe now fl prev f hf hnone
    obtain ⟨e, he⟩ := write_schedule_items_error_of_none probe fl now f hf hnone
    exact ⟨e, by rw [write_schedule, he]⟩
  · intro probe probe2 now en M N pl c hist vt
    by_cases hc : c < pl.length <;> simp [loop, hc]
  · intro probe now en M N pl c hist vt e h
    by_cases hc : c < pl.length
    · cases en with
      | false => simp [loop, hc]
      | true => simp [loop, hc, h]
    · simp [loop, hc]

/-- Witness for C6: a probe that always fails makes `write_schedule`
raise on the one-item slice `["X"]`. -/
theorem C6_probe_isolation_witness :
    "X" ∈ (["X"] : List String) ∧
    ∃ e, write_schedule (fun _ => none) 0 ["X"] "" = Except.error e :=
  ⟨by decide, C6_probe_isolation.1 (fun _ => none) 0 ["X"] "" "X" (by decide) rfl⟩

/-! ## Claim C9: display-name derivation and escaping -/

/-- C9 (amended): on a successful `write_schedule` run, every upcoming
item's name appearing in the artifact is the playlist entry with its
extension stripped and backslashes replaced by forward slashes, and in
the JavaScript array literal these names are additionally single-quote
escaped; the previous item's name is extension-stripped and
slash-normalized but substituted into the template with NO escaping. -/
theorem C9_display_names :
    ∀ (probe : String → Option Nat) (now : Nat) (fl : List String)
      (prev : String) (a : ScheduleArtifact),
      write_schedule probe now fl prev = Except.ok a →
      a.coming_up_next.map Prod.snd = fl.map displayName ∧
      a.js_names = fl.map (fun f => escapeQuotes (displayName f)) ∧
      a.previous_name = if prev = "" then "" else displayName prev := by
  intro probe now fl prev a h
  have := write_schedule_ok_spec probe now fl prev a h
  exact ⟨this.2.1, this.2.2.1, this.2.2.2⟩

/-- Witness for C9: the name derivation evaluated on a concrete
successful run. -/
theorem C9_display_names_witness :
    ∃ a, write_schedule example_probe 1000 ["B"] "A" = Except.ok a ∧
      a.coming_up_next.map Prod.snd = (["B"] : List String).map displayName ∧
      a.js_names = (["B"] : List String).map (fun f => escapeQuotes (displayName f)) ∧
      a.previous_name = if ("A" : String) = "" then "" else displayName "A" :=
  ⟨{ coming_up_next := [(1000, "B")], js_names := ["B"], previous_name := "A" },
   rfl,
   C9_display_names example_probe 1000 ["B"] "A"
     { coming_up_next := [(1000, "B")], js_names := ["B"], previous_name := "A" } rfl⟩

/-- C9 is false as stated: a previous file whose name contains a single
quote (here `a'b.mp4`) is substituted into the template with the quote
left unescaped, while the claim demands that format-breaking characters
be escaped for the previous item's name as well (the same name inside
the JavaScript array IS escaped, as the upcoming-name conjunct shows). -/
theorem C9_counterexample :
    write_schedule (fun f => if f = "X" then some 5 else none) 0 ["X"]
        (String.mk ['a', Char.ofNat 39, 'b', '.', 'm', 'p', '4']) =
      Except.ok
        { coming_up_next := [(0, "X")]
          js_names := ["X"]
          previous_name := String.mk ['a', Char.ofNat 39, 'b'] } ∧
    String.mk ['a', Char.ofNat 39, 'b'] ≠
      escapeQuotes (displayName (String.mk ['a', Char.ofNat 39, 'b', '.', 'm', 'p', '4'])) ∧
    escapeQuotes (displayName (String.mk ['a', Char.ofNat 39, 'b', '.', 'm', 'p', '4'])) =
      String.mk ['a', Char.ofNat 92, Char.ofNat 39, 'b'] := by
  refine ⟨rfl, by decide, by decide⟩

/-! ## Claim C10: the previous entry at cursor 0 -/

/-- C10: on a cycle at cursor 0 (including the very first cycle of a
fresh deployment), the `previous_file` value passed to the schedule
writer — `media_playlist[play_index - 1]`, i.e. Python index `-1` — is
the last entry of the playlist; and for a playlist produced by the
startup filter (whose entries are never empty), the value passed is
never the empty string, so `write_schedule`'s "no previous item"
branch is never taken for a non-empty playlist. -/
theorem C10_previous_entry :
    (∀ (pl : List String) (h : pl ≠ []), previous_entry pl 0 = pl.getLast h) ∧
    (∀ (pl : List String) (i : Nat), (∀ x ∈ pl, x ≠ "") → i < pl.length →
       previous_entry pl i ≠ "") ∧
    (∀ (raw : List String) (x : String), x ∈ normalize_playlist raw → x ≠ "") := by
  refine ⟨?_, ?_, ?_⟩
  · intro pl h
    rw [previous_entry, if_pos rfl, List.getLast_eq_getElem,
      List.getD_eq_getElem?_getD,
      List.getElem?_eq_getElem (by
        have := List.length_pos.mpr h
        omega)]
    rfl
  · intro pl i hne hi
    cases i with
    | zero =>
      rw [previous_entry, if_pos rfl, List.getD_eq_getElem?_getD,
        List.getElem?_eq_getElem (by omega)]
      exact hne _ (List.getElem_mem _)
    | succ j =>
      rw [previous_entry, if_neg (Nat.succ_ne_zero j),
        show j + 1 - 1 = j from rfl, List.getD_eq_getElem?_getD,
        List.getElem?_eq_getElem (by omega)]
      exact hne _ (List.getElem_mem _)
  · intro raw x hx
    have := (List.mem_filter.mp hx).2
    simp only [Bool.and_eq_true, bne_iff_ne] at this
    exact this.1.1.1

/-- Witness for C10: on the playlist `["a", "b"]` at cursor 0 the
previous entry is the final element `"b"`, and it is not empty. -/
theorem C10_previous_entry_witness :
    previous_entry ["a", "b"] 0 = (["a", "b"] : List String).getLast (by decide) ∧
    previous_entry ["a", "b"] 0 ≠ "" :=
  ⟨C10_previous_entry.1 ["a", "b"] (by decide),
   C10_previous_entry.2.1 ["a", "b"] 0 (by decide) (by decide)⟩

end Otcs
